import Mathlib

/-!
Verification development for the DHIS2 users web-data-connector
(src/js/connector.js). The JavaScript is shallowly embedded: JSON values
are an inductive type, JavaScript expression values (which may be
`undefined`) are an option-like wrapper, and each fallible piece of the
pipeline returns `Except JsError`. JSON numbers are modelled as integers;
no claim involves numeric fields. The browser platform pieces (fetch,
DOM reads, JSON.parse of the response body) are modelled by passing the
already-parsed response and the form-field values as explicit arguments,
exactly as the code consumes them.
-/

/-- JSON values, as produced by JSON.parse of an API response body. -/
inductive JsonValue : Type
  | null : JsonValue
  | bool : Bool → JsonValue
  | num : Int → JsonValue
  | str : String → JsonValue
  | arr : List JsonValue → JsonValue
  | obj : List (String × JsonValue) → JsonValue

/-- JavaScript expression values: either `undefined` or a JSON value.
Property reads on objects that lack the key yield `.undefined`. -/
inductive JsValue : Type
  | undefined : JsValue
  | val : JsonValue → JsValue

/-- Errors surfaced by the pipeline. `httpError` models the
`new Error("HTTP status: statusText")` thrown on a non-ok response (the
status and reason are what determine its message); `typeError` models a
TypeError from a property access or method call on an unsuitable value;
`badJson` models the SyntaxError rejection of response.json() or
JSON.parse on input that is not valid JSON. -/
inductive JsError : Type
  | httpError : Nat → String → JsError
  | typeError : String → JsError
  | badJson : String → JsError

/-- Message carried by an error (JavaScript err.message). -/
def errMessage : JsError → String
  | .httpError status statusText => "HTTP " ++ toString status ++ ": " ++ statusText
  | .typeError m => m
  | .badJson m => m

/-- Property lookup in an object field list; later duplicates win, as in
JavaScript object semantics. -/
def jsLookup (fields : List (String × JsonValue)) (key : String) : Option JsonValue :=
  fields.foldl (fun acc kv => if kv.1 = key then some kv.2 else acc) none

/-- Property read on a non-null JSON value: objects consult their fields,
every other value yields `undefined` for the keys this program reads. -/
def jsField (v : JsonValue) (key : String) : JsValue :=
  match v with
  | .obj fs =>
    match jsLookup fs key with
    | some w => .val w
    | none => .undefined
  | _ => .undefined

/-- Whether a JSON value is null. -/
def JsonValue.isNull : JsonValue → Bool
  | .null => true
  | _ => false

/-- JavaScript property access `v.key`: throws a TypeError on undefined
or null receivers, otherwise reads the field. -/
def jsGet (v : JsValue) (key : String) : Except JsError JsValue :=
  match v with
  | .undefined => .error (.typeError ("Cannot read properties of undefined (reading " ++ key ++ ")"))
  | .val .null => .error (.typeError ("Cannot read properties of null (reading " ++ key ++ ")"))
  | .val u => .ok (jsField u key)

/-- Optional chaining `v?.key`: undefined and null receivers short-circuit
to undefined instead of throwing. -/
def jsOptGet (v : JsValue) (key : String) : Except JsError JsValue :=
  match v with
  | .undefined => .ok .undefined
  | .val .null => .ok .undefined
  | .val u => .ok (jsField u key)

/-- JavaScript truthiness of a value. -/
def jsTruthy : JsValue → Bool
  | .undefined => false
  | .val .null => false
  | .val (.bool b) => b
  | .val (.num n) => !(n == 0)
  | .val (.str s) => !(s == "")
  | .val (.arr _) => true
  | .val (.obj _) => true

/-- JavaScript `v || d` with a literal default: the value if truthy,
otherwise the default. -/
def jsOr (v : JsValue) (d : JsonValue) : JsValue :=
  if jsTruthy v then v else .val d

mutual

/-- String conversion of a JSON value, as in template literals and
String(): arrays join their elements with commas (null elements become
empty), objects print as [object Object]. -/
def jsonToStr : JsonValue → String
  | .null => "null"
  | .bool b => cond b "true" "false"
  | .num n => toString n
  | .str s => s
  | .arr xs => String.intercalate "," (jsonArrElems xs)
  | .obj _ => "[object Object]"

/-- Element-wise string conversion inside an array, where null elements
convert to the empty string. -/
def jsonArrElems : List JsonValue → List String
  | [] => []
  | .null :: rest => "" :: jsonArrElems rest
  | v :: rest => jsonToStr v :: jsonArrElems rest

end

/-- String conversion of an element inside Array.prototype.join: both
undefined and null become the empty string. -/
def joinValue : JsValue → String
  | .undefined => ""
  | .val .null => ""
  | .val w => jsonToStr w

/-- String conversion of a JavaScript value in a template literal. -/
def jsValToStr : JsValue → String
  | .undefined => "undefined"
  | .val w => jsonToStr w

/-- Array.prototype.map with a callback that may throw: the first throw
aborts the whole map. -/
def mapExcept {α β : Type} (f : α → Except JsError β) : List α → Except JsError (List β)
  | [] => .ok []
  | x :: xs => do
    let y ← f x
    let ys ← mapExcept f xs
    pure (y :: ys)

/-- Flat row produced for each raw user record: the 16 scalar output
fields of the connector. Fields copied without a default keep the raw
JavaScript value (possibly undefined); the three list relations are
joined strings. -/
structure FlatUserRow : Type where
  id : JsValue
  username : JsValue
  firstName : JsValue
  surname : JsValue
  displayName : JsValue
  created : JsValue
  lastUpdated : JsValue
  gender : JsValue
  email : JsValue
  phone : JsValue
  jobTitle : JsValue
  disabled : JsValue
  orgUnits : String
  roles : String
  groups : String
  lastLogin : JsValue

/-- Embedding of `(u.key || []).map(o => o.name).join("; ")`: read the
list relation, default a falsy value to the empty array, map each element
to its name (a TypeError on a truthy non-array value or a null element),
and join with the fixed separator. -/
def joinNames (u : JsValue) (key : String) : Except JsError String := do
  let f ← jsGet u key
  match (if jsTruthy f then f else .val (.arr [])) with
  | .val (.arr xs) => do
    let names ← mapExcept (fun o => jsGet (.val o) "name") xs
    pure (String.intercalate "; " (names.map joinValue))
  | _ => .error (.typeError (key ++ ".map is not a function"))

/-- Embedding of the per-record mapping in fetchDataForWDC: each raw user
object becomes a FlatUserRow, with `|| default` fallbacks exactly where
the source has them. -/
def flattenUser (u : JsonValue) : Except JsError FlatUserRow := do
  let idv ← jsGet (.val u) "id"
  let usernamev ← jsGet (.val u) "username"
  let firstNamev ← jsGet (.val u) "firstName"
  let surnamev ← jsGet (.val u) "surname"
  let displayNamev ← jsGet (.val u) "displayName"
  let createdv ← jsGet (.val u) "created"
  let lastUpdatedv ← jsGet (.val u) "lastUpdated"
  let genderv ← jsGet (.val u) "gender"
  let emailv ← jsGet (.val u) "email"
  let phonev ← jsGet (.val u) "phoneNumber"
  let jobTitlev ← jsGet (.val u) "jobTitle"
  let disabledv ← jsGet (.val u) "disabled"
  let orgUnitsv ← joinNames (.val u) "organisationUnits"
  let rolesv ← joinNames (.val u) "userRoles"
  let groupsv ← joinNames (.val u) "userGroups"
  let credsv ← jsGet (.val u) "userCredentials"
  let lastLoginv ← jsOptGet credsv "lastLogin"
  pure {
    id := idv
    username := usernamev
    firstName := firstNamev
    surname := surnamev
    displayName := displayNamev
    created := createdv
    lastUpdated := lastUpdatedv
    gender := jsOr genderv (.str "")
    email := jsOr emailv (.str "")
    phone := jsOr phonev (.str "")
    jobTitle := jsOr jobTitlev (.str "")
    disabled := jsOr disabledv (.bool false)
    orgUnits := orgUnitsv
    roles := rolesv
    groups := groupsv
    lastLogin := jsOr lastLoginv (.str "") }

/-- Embedding of `json.users.map(u => ...)` applied to the parsed body:
reading users throws on a null body value, calling map throws unless the
field holds an array, and otherwise each record is flattened in order. -/
def processBody (json : JsonValue) : Except JsError (List FlatUserRow) := do
  let users ← jsGet (.val json) "users"
  match users with
  | .val (.arr xs) => mapExcept flattenUser xs
  | .undefined => .error (.typeError "Cannot read properties of undefined (reading map)")
  | .val .null => .error (.typeError "Cannot read properties of null (reading map)")
  | _ => .error (.typeError "json.users.map is not a function")

/-- Values of the three connection form fields, read when the
corresponding config entry is falsy. -/
structure DomFields : Type where
  baseUrl : String
  username : String
  password : String

/-- Embedding of `config.key || document.getElementById(...).value`:
read the config property (a TypeError on a null config), fall back to the
form field when falsy, and convert as a template literal would. -/
def readParam (cfg : JsonValue) (key : String) (domVal : String) : Except JsError String := do
  let v ← jsGet (.val cfg) key
  pure (if jsTruthy v then jsValToStr v else domVal)

/-- Field-selection list sent to the API, one entry per selected field,
with the three bracketed sub-selections. -/
def fieldSelectors : List String :=
  ["id", "username", "firstName", "surname", "displayName", "created",
   "lastUpdated", "gender", "email", "phoneNumber", "jobTitle",
   "organisationUnits[id,name]", "userRoles[id,name]", "userGroups[id,name]",
   "userCredentials[username,lastLogin]"]

/-- Request URL built by fetchDataForWDC from the effective base URL. -/
def buildUrl (base : String) : String :=
  base ++ "/api/users.json?fields=" ++
    "id,username,firstName,surname,displayName,created,lastUpdated,gender," ++
    "email,phoneNumber,jobTitle,organisationUnits[id,name],userRoles[id,name]," ++
    "userGroups[id,name],userCredentials[username,lastLogin]&paging=false"

/-- Request URL as a function of config and form fields, mirroring the
base-URL resolution performed at the top of fetchDataForWDC. -/
def requestUrl (cfg : JsonValue) (dom : DomFields) : Except JsError String := do
  let base ← readParam cfg "baseUrl" dom.baseUrl
  pure (buildUrl base)

/-- HTTP response as the fetch promise delivers it: status, reason
phrase, and the JSON parse of the body (`none` when response.json()
would reject because the body is not valid JSON). -/
structure HttpResponse : Type where
  status : Nat
  statusText : String
  body : Option JsonValue

/-- Fetch Response.ok: status in the 2xx range. -/
def responseOk (r : HttpResponse) : Bool :=
  200 ≤ r.status && r.status ≤ 299

/-- Outcome of a fetchDataForWDC call: a synchronous throw before the
request is issued, a rejected promise, or a resolved promise carrying the
flattened rows. -/
inductive FetchOutcome : Type
  | thrownSync : JsError → FetchOutcome
  | rejected : JsError → FetchOutcome
  | resolved : List FlatUserRow → FetchOutcome

/-- Embedding of fetchDataForWDC: resolve the three connection
parameters (throwing synchronously if the config object is null), build
the request URL, and process the response — a non-ok status rejects with
the HTTP error before the body is parsed, an unparseable body rejects
with the JSON syntax failure, and otherwise the users array is flattened.
The catch handler only runs UI side effects and rethrows, so rejections
pass through unchanged. -/
def fetchDataForWDC (cfg : JsonValue) (dom : DomFields) (resp : HttpResponse) : FetchOutcome :=
  match (do
    let base ← readParam cfg "baseUrl" dom.baseUrl
    let user ← readParam cfg "username" dom.username
    let pass ← readParam cfg "password" dom.password
    pure (base, user, pass) : Except JsError (String × String × String)) with
  | .error e => .thrownSync e
  | .ok (base, _, _) =>
    let _url : String := buildUrl base
    if responseOk resp then
      match resp.body with
      | none => .rejected (.badJson "Unexpected end of JSON input")
      | some json =>
        match processBody json with
        | .ok rows => .resolved rows
        | .error e => .rejected e
    else .rejected (.httpError resp.status resp.statusText)

/-- Outcome of a connector.getData call: rows appended followed by the
done callback, tableau.abortWithError with a message, or a synchronous
throw out of getData itself. -/
inductive HostOutcome : Type
  | success : List FlatUserRow → HostOutcome
  | aborted : String → HostOutcome
  | thrown : JsError → HostOutcome

/-- Whether a host outcome is an abortWithError signal. -/
def HostOutcome.isAborted : HostOutcome → Bool
  | .aborted _ => true
  | _ => false

/-- Embedding of connector.getData: `JSON.parse(tableau.connectionData)`
runs before the promise chain, so its failure (passed here as the parse
outcome) propagates as a synchronous throw; a rejected fetch reaches the
catch handler, which calls tableau.abortWithError with the error message;
a resolved fetch appends exactly the fetched rows and calls done. A
synchronous throw inside fetchDataForWDC also escapes getData. -/
def getData (parsed : Except JsError JsonValue) (dom : DomFields) (resp : HttpResponse) :
    HostOutcome :=
  match parsed with
  | .error e => .thrown e
  | .ok cfg =>
    match fetchDataForWDC cfg dom resp with
    | .resolved rows => .success rows
    | .rejected e => .aborted (errMessage e)
    | .thrownSync e => .thrown e

/-- Tableau column data types used by the schema. -/
inductive WdcDataType : Type
  | string : WdcDataType
  | datetime : WdcDataType
  | boolean : WdcDataType

/-- One column descriptor: id, alias, data type. -/
structure ColumnSchema : Type where
  id : String
  colAlias : String
  dataType : WdcDataType

/-- One table descriptor passed to the schema callback. -/
structure SchemaTable : Type where
  id : String
  columns : List ColumnSchema

/-- The 16 column definitions of connector.getSchema, in source order. -/
def userColumns : List ColumnSchema :=
  [⟨"id", "ID", .string⟩,
   ⟨"username", "Username", .string⟩,
   ⟨"firstName", "First Name", .string⟩,
   ⟨"surname", "Last Name", .string⟩,
   ⟨"displayName", "Display Name", .string⟩,
   ⟨"created", "Created", .datetime⟩,
   ⟨"lastUpdated", "Last Updated", .datetime⟩,
   ⟨"gender", "Gender", .string⟩,
   ⟨"email", "Email", .string⟩,
   ⟨"phone", "Phone", .string⟩,
   ⟨"jobTitle", "Job Title", .string⟩,
   ⟨"orgUnits", "Org Units", .string⟩,
   ⟨"roles", "Roles", .string⟩,
   ⟨"groups", "Groups", .string⟩,
   ⟨"lastLogin", "Last Login", .datetime⟩,
   ⟨"disabled", "Disabled", .boolean⟩]

/-- The table list connector.getSchema hands to its callback. -/
def getSchemaTables : List SchemaTable :=
  [⟨"DHIS2Users", userColumns⟩]

/-- Embedding of connector.getSchema: the callback is invoked once with
the fixed table list. -/
def getSchema (schemaCallback : List SchemaTable → List SchemaTable) : List SchemaTable :=
  schemaCallback getSchemaTables

/-- Connection configuration persisted through the host: the three
fields the submit handler serializes. -/
structure ConnectionConfig : Type where
  baseUrl : String
  username : String
  password : String

/-- JSON object the submit handler builds from the three fields before
serializing it. -/
def configToJson (c : ConnectionConfig) : JsonValue :=
  .obj [("baseUrl", .str c.baseUrl), ("username", .str c.username), ("password", .str c.password)]

/-- Lowercase hex digit for a value below 16, as JSON.stringify emits in
a unicode escape. -/
def hexDigitChar (n : Nat) : Char :=
  Char.ofNat (if n < 10 then 48 + n else 87 + n)

/-- Escaping of one character inside a JSON string literal, following
JSON.stringify: quote and backslash get a backslash escape, the five
named control characters their short forms, the remaining control
characters a \u00XX escape, and everything else stands as itself. -/
def escapeChar (c : Char) : List Char :=
  if c = '"' then ['\\', '"']
  else if c = '\\' then ['\\', '\\']
  else if c = '\x08' then ['\\', 'b']
  else if c = '\t' then ['\\', 't']
  else if c = '\n' then ['\\', 'n']
  else if c = '\x0c' then ['\\', 'f']
  else if c = '\r' then ['\\', 'r']
  else if c.toNat < 32 then
    ['\\', 'u', '0', '0', hexDigitChar (c.toNat / 16), hexDigitChar (c.toNat % 16)]
  else [c]

/-- Escaped character list of a whole string. -/
def escapeString (s : String) : List Char :=
  (s.data.map escapeChar).flatten

/-- Embedding of the submit handler serialization
`JSON.stringify({baseUrl, username, password})`: the exact connection
string written into tableau.connectionData. -/
def stringifyConnectionData (c : ConnectionConfig) : String :=
  ⟨"\x7b\"baseUrl\":\"".data ++ (escapeString c.baseUrl ++
    ('"' :: (",\"username\":\"".data ++ (escapeString c.username ++
    ('"' :: (",\"password\":\"".data ++ (escapeString c.password ++
    ('"' :: "\x7d".data))))))))⟩

/-- Numeric value of a hex digit character, either case, as JSON.parse
accepts in unicode escapes. -/
def hexVal (c : Char) : Option Nat :=
  if 48 ≤ c.toNat ∧ c.toNat ≤ 57 then some (c.toNat - 48)
  else if 97 ≤ c.toNat ∧ c.toNat ≤ 102 then some (c.toNat - 87)
  else if 65 ≤ c.toNat ∧ c.toNat ≤ 70 then some (c.toNat - 55)
  else none

/-- JSON string-body scanner: consumes characters after the opening
quote up to and including the closing quote, decoding escapes as
JSON.parse does, and returns the decoded content with the rest of the
input. -/
def parseStringBody : List Char → Option (List Char × List Char)
  | [] => none
  | c :: rest =>
    if c = '"' then some ([], rest)
    else if c = '\\' then
      match rest with
      | [] => none
      | e :: r =>
        if e = '"' then (parseStringBody r).map (fun p => ('"' :: p.1, p.2))
        else if e = '\\' then (parseStringBody r).map (fun p => ('\\' :: p.1, p.2))
        else if e = '/' then (parseStringBody r).map (fun p => ('/' :: p.1, p.2))
        else if e = 'b' then (parseStringBody r).map (fun p => ('\x08' :: p.1, p.2))
        else if e = 't' then (parseStringBody r).map (fun p => ('\t' :: p.1, p.2))
        else if e = 'n' then (parseStringBody r).map (fun p => ('\n' :: p.1, p.2))
        else if e = 'f' then (parseStringBody r).map (fun p => ('\x0c' :: p.1, p.2))
        else if e = 'r' then (parseStringBody r).map (fun p => ('\r' :: p.1, p.2))
        else if e = 'u' then
          match r with
          | h1 :: h2 :: h3 :: h4 :: r2 =>
            match hexVal h1, hexVal h2, hexVal h3, hexVal h4 with
            | some a, some b, some c2, some d =>
              (parseStringBody r2).map
                (fun p => (Char.ofNat (4096 * a + 256 * b + 16 * c2 + d) :: p.1, p.2))
            | _, _, _, _ => none
          | _ => none
        else none
    else (parseStringBody rest).map (fun p => (c :: p.1, p.2))

/-- Consumes an expected literal character sequence from the input,
returning the remainder on a match. -/
def consumeLit : List Char → List Char → Option (List Char)
  | [], input => some input
  | _ :: _, [] => none
  | p :: ps, c :: cs => if c = p then consumeLit ps cs else none

/-- Embedding of the getData deserialization
`JSON.parse(tableau.connectionData)` followed by use of the three fields,
restricted to the object grammar the submit handler writes: an object
with exactly the keys baseUrl, username, password and JSON string
values. -/
def parseConnectionData (s : String) : Option ConnectionConfig :=
  match consumeLit "\x7b\"baseUrl\":\"".data s.data with
  | none => none
  | some r1 =>
    match parseStringBody r1 with
    | none => none
    | some (b, r2) =>
      match consumeLit ",\"username\":\"".data r2 with
      | none => none
      | some r3 =>
        match parseStringBody r3 with
        | none => none
        | some (u, r4) =>
          match consumeLit ",\"password\":\"".data r4 with
          | none => none
          | some r5 =>
            match parseStringBody r5 with
            | none => none
            | some (p, r6) =>
              match consumeLit "\x7d".data r6 with
              | some [] => some ⟨⟨b⟩, ⟨u⟩, ⟨p⟩⟩
              | _ => none

/-- Demo connection values used to instantiate the theorems. -/
def demoConfig : ConnectionConfig :=
  ⟨"https://play.dhis2.org", "admin", "district"⟩

/-- Demo form-field values (all blank, as when config supplies them). -/
def demoDom : DomFields := ⟨"", "", ""⟩

/-- Successful response whose body has no users array. -/
def respNoUsers : HttpResponse := ⟨200, "OK", some (.obj [])⟩

/-- Unauthorized response. -/
def resp401 : HttpResponse := ⟨401, "Unauthorized", none⟩

/-- Server-error response. -/
def respServerError : HttpResponse := ⟨500, "Internal Server Error", none⟩

/-- Successful response carrying one minimal user record. -/
def respOneUser : HttpResponse :=
  ⟨200, "OK", some (.obj [("users", .arr [.obj [("id", .str "u1")]])])⟩

/-- Raw user record with two named org units, an empty role list and no
group list. -/
def demoUserAB : JsonValue :=
  .obj [("organisationUnits", .arr [.obj [("name", .str "A")], .obj [("name", .str "B")]]),
        ("userRoles", .arr [])]

/-- Row produced for the minimal record holding only an id. -/
def rowOnlyId : FlatUserRow :=
  { id := .val (.str "u1"), username := .undefined, firstName := .undefined, surname := .undefined,
    displayName := .undefined, created := .undefined, lastUpdated := .undefined,
    gender := .val (.str ""), email := .val (.str ""), phone := .val (.str ""),
    jobTitle := .val (.str ""), disabled := .val (.bool false),
    orgUnits := "", roles := "", groups := "", lastLogin := .val (.str "") }

/-- Whether the parsed body holds a users field that is an array
(the only shape the mapping step accepts). -/
def usersFieldIsArray (json : JsonValue) : Bool :=
  match jsGet (.val json) "users" with
  | .ok (.val (.arr _)) => true
  | _ => false

/-- Row produced for the demo record with org units A and B. -/
def rowAB : FlatUserRow :=
  { id := .undefined, username := .undefined, firstName := .undefined, surname := .undefined,
    displayName := .undefined, created := .undefined, lastUpdated := .undefined,
    gender := .val (.str ""), email := .val (.str ""), phone := .val (.str ""),
    jobTitle := .val (.str ""), disabled := .val (.bool false),
    orgUnits := "A; B", roles := "", groups := "", lastLogin := .val (.str "") }

theorem ok_bind {ε α β : Type} (a : α) (f : α → Except ε β) :
    (Except.ok a >>= f) = f a := rfl

theorem error_bind {ε α β : Type} (e : ε) (f : α → Except ε β) :
    ((Except.error e : Except ε α) >>= f) = Except.error e := rfl

theorem pure_eq_ok {ε α : Type} (a : α) : (pure a : Except ε α) = Except.ok a := rfl

theorem jsGet_val_ok {u : JsonValue} (hn : u.isNull = false) (key : String) :
    jsGet (.val u) key = .ok (jsField u key) := by
  cases u <;> simp_all [jsGet, JsonValue.isNull]

theorem jsOr_ne_undefined (v : JsValue) (d : JsonValue) : jsOr v d ≠ .undefined := by
  cases v with
  | undefined => simp [jsOr, jsTruthy]
  | val w => unfold jsOr; split <;> simp

theorem jsOr_undefined (d : JsonValue) : jsOr .undefined d = .val d := rfl

/-- Inversion of a successful flattenUser: the record is not null, the
three joins and the credentials read succeeded, and the row is exactly
the record literal built from the field reads. -/
theorem flattenUser_inv (u : JsonValue) (row : FlatUserRow) (h : flattenUser u = .ok row) :
    u.isNull = false ∧
    ∃ og rl gp ll,
      joinNames (.val u) "organisationUnits" = .ok og ∧
      joinNames (.val u) "userRoles" = .ok rl ∧
      joinNames (.val u) "userGroups" = .ok gp ∧
      jsOptGet (jsField u "userCredentials") "lastLogin" = .ok ll ∧
      row = { id := jsField u "id", username := jsField u "username",
              firstName := jsField u "firstName", surname := jsField u "surname",
              displayName := jsField u "displayName", created := jsField u "created",
              lastUpdated := jsField u "lastUpdated",
              gender := jsOr (jsField u "gender") (.str ""),
              email := jsOr (jsField u "email") (.str ""),
              phone := jsOr (jsField u "phoneNumber") (.str ""),
              jobTitle := jsOr (jsField u "jobTitle") (.str ""),
              disabled := jsOr (jsField u "disabled") (.bool false),
              orgUnits := og, roles := rl, groups := gp,
              lastLogin := jsOr ll (.str "") } := by
  have hn : u.isNull = false := by
    cases u with
    | null => simp [flattenUser, jsGet, error_bind] at h
    | bool b => rfl
    | num n => rfl
    | str s => rfl
    | arr xs => rfl
    | obj fs => rfl
  refine ⟨hn, ?_⟩
  unfold flattenUser at h
  rw [jsGet_val_ok hn "id", ok_bind, jsGet_val_ok hn "username", ok_bind,
      jsGet_val_ok hn "firstName", ok_bind, jsGet_val_ok hn "surname", ok_bind,
      jsGet_val_ok hn "displayName", ok_bind, jsGet_val_ok hn "created", ok_bind,
      jsGet_val_ok hn "lastUpdated", ok_bind, jsGet_val_ok hn "gender", ok_bind,
      jsGet_val_ok hn "email", ok_bind, jsGet_val_ok hn "phoneNumber", ok_bind,
      jsGet_val_ok hn "jobTitle", ok_bind, jsGet_val_ok hn "disabled", ok_bind] at h
  cases hog : joinNames (.val u) "organisationUnits" with
  | error e => rw [hog, error_bind] at h; exact absurd h (by simp)
  | ok og =>
    rw [hog, ok_bind] at h
    cases hrl : joinNames (.val u) "userRoles" with
    | error e => rw [hrl, error_bind] at h; exact absurd h (by simp)
    | ok rl =>
      rw [hrl, ok_bind] at h
      cases hgp : joinNames (.val u) "userGroups" with
      | error e => rw [hgp, error_bind] at h; exact absurd h (by simp)
      | ok gp =>
        rw [hgp, ok_bind, jsGet_val_ok hn "userCredentials", ok_bind] at h
        cases hll : jsOptGet (jsField u "userCredentials") "lastLogin" with
        | error e => rw [hll, error_bind] at h; exact absurd h (by simp)
        | ok ll =>
          rw [hll, ok_bind, pure_eq_ok] at h
          injection h with h
          exact ⟨og, rl, gp, ll, rfl, rfl, rfl, rfl, h.symm⟩

theorem mapExcept_name_objs (ns : List String) :
    mapExcept (fun o => jsGet (.val o) "name")
      (ns.map fun n => JsonValue.obj [("name", JsonValue.str n)]) =
      .ok (ns.map fun n => JsValue.val (.str n)) := by
  induction ns with
  | nil => rfl
  | cons n ns ih =>
    simp only [List.map_cons, mapExcept]
    rw [show jsGet (.val (JsonValue.obj [("name", JsonValue.str n)])) "name" =
        .ok (.val (.str n)) from rfl, ok_bind, ih, ok_bind]
    rfl

theorem joinValue_map_names (ns : List String) :
    (ns.map fun n => JsValue.val (JsonValue.str n)).map joinValue = ns := by
  induction ns with
  | nil => rfl
  | cons n ns ih => simp only [List.map_cons, ih]; rfl

/-- A list relation holding an array of named objects joins to the names
interleaved with the fixed separator, in source order. -/
theorem joinNames_named (u : JsonValue) (key : String) (ns : List String)
    (h : jsGet (.val u) key =
      .ok (.val (.arr (ns.map fun n => JsonValue.obj [("name", JsonValue.str n)])))) :
    joinNames (.val u) key = .ok (String.intercalate "; " ns) := by
  unfold joinNames
  rw [h, ok_bind]
  simp only [jsTruthy, if_true]
  rw [mapExcept_name_objs, ok_bind, joinValue_map_names]
  rfl

/-- An absent list relation joins to the empty string. -/
theorem joinNames_absent (u : JsonValue) (key : String)
    (h : jsGet (.val u) key = .ok .undefined) :
    joinNames (.val u) key = .ok "" := by
  unfold joinNames
  rw [h, ok_bind]
  rfl

theorem mapExcept_ok_length {α β : Type} (f : α → Except JsError β) :
    ∀ xs ys, mapExcept f xs = .ok ys → ys.length = xs.length := by
  intro xs
  induction xs with
  | nil => intro ys h; injection h with h; subst h; rfl
  | cons x xs ih =>
    intro ys h
    unfold mapExcept at h
    cases hf : f x with
    | error e => rw [hf, error_bind] at h; exact absurd h (by simp)
    | ok y =>
      rw [hf, ok_bind] at h
      cases hm : mapExcept f xs with
      | error e => rw [hm, error_bind] at h; exact absurd h (by simp)
      | ok ys' =>
        rw [hm, ok_bind, pure_eq_ok] at h
        injection h with h
        subst h
        simp [ih ys' hm]

theorem mapExcept_ok_get {α β : Type} (f : α → Except JsError β) :
    ∀ xs ys, mapExcept f xs = .ok ys →
      ∀ i (hx : i < xs.length) (hy : i < ys.length),
        f (xs.get ⟨i, hx⟩) = .ok (ys.get ⟨i, hy⟩) := by
  intro xs
  induction xs with
  | nil => intro ys h i hx hy; exact absurd hx (by simp)
  | cons x xs ih =>
    intro ys h i hx hy
    unfold mapExcept at h
    cases hf : f x with
    | error e => rw [hf, error_bind] at h; exact absurd h (by simp)
    | ok y =>
      rw [hf, ok_bind] at h
      cases hm : mapExcept f xs with
      | error e => rw [hm, error_bind] at h; exact absurd h (by simp)
      | ok ys' =>
        rw [hm, ok_bind, pure_eq_ok] at h
        injection h with h
        subst h
        cases i with
        | zero => simpa using hf
        | succ j =>
          have hx' : j < xs.length := by simpa using hx
          have hy' : j < ys'.length := by simpa using hy
          simpa using ih ys' hm j hx' hy'

theorem readParam_ok {cfg : JsonValue} (hn : cfg.isNull = false) (key domVal : String) :
    readParam cfg key domVal =
      .ok (if jsTruthy (jsField cfg key) then jsValToStr (jsField cfg key) else domVal) := by
  unfold readParam
  rw [jsGet_val_ok hn, ok_bind]
  rfl

/-- With a non-null config object the parameter reads succeed, and the
fetch outcome is decided by the response alone: a non-ok status rejects
with the HTTP error, an unparseable body with the JSON failure, and
otherwise the body processing decides. -/
theorem fetchDataForWDC_nonNull {cfg : JsonValue} (hn : cfg.isNull = false)
    (dom : DomFields) (resp : HttpResponse) :
    fetchDataForWDC cfg dom resp =
      if responseOk resp then
        match resp.body with
        | none => .rejected (.badJson "Unexpected end of JSON input")
        | some json =>
          match processBody json with
          | .ok rows => .resolved rows
          | .error e => .rejected e
      else .rejected (.httpError resp.status resp.statusText) := by
  unfold fetchDataForWDC
  rw [readParam_ok hn "baseUrl", ok_bind, readParam_ok hn "username", ok_bind,
      readParam_ok hn "password", ok_bind, pure_eq_ok]

/-- A resolved fetch came from an ok response whose body parsed and
processed successfully. -/
theorem fetchDataForWDC_resolved_inv {cfg : JsonValue} {dom : DomFields}
    {resp : HttpResponse} {rows : List FlatUserRow}
    (h : fetchDataForWDC cfg dom resp = .resolved rows) :
    ∃ json, resp.body = some json ∧ processBody json = .ok rows := by
  unfold fetchDataForWDC at h
  split at h
  · exact absurd h (by simp)
  · split at h
    · split at h
      · exact absurd h (by simp)
      · rename_i json hbody
        split at h
        · rename_i rows' hrows
          injection h with h
          subst h
          exact ⟨json, hbody, hrows⟩
        · exact absurd h (by simp)
    · exact absurd h (by simp)

theorem getData_of_rejected {cfg : JsonValue} {dom : DomFields} {resp : HttpResponse}
    {e : JsError} (h : fetchDataForWDC cfg dom resp = .rejected e) :
    getData (.ok cfg) dom resp = .aborted (errMessage e) := by
  simp only [getData]
  rw [h]

theorem getData_of_resolved {cfg : JsonValue} {dom : DomFields} {resp : HttpResponse}
    {rows : List FlatUserRow} (h : fetchDataForWDC cfg dom resp = .resolved rows) :
    getData (.ok cfg) dom resp = .success rows := by
  simp only [getData]
  rw [h]

theorem hexVal_hexDigitChar (m : Nat) (hm : m < 16) : hexVal (hexDigitChar m) = some m := by
  interval_cases m <;> rfl

theorem charOfNat_digits (c : Char) :
    Char.ofNat (4096 * 0 + 256 * 0 + 16 * (c.toNat / 16) + c.toNat % 16) = c := by
  rw [show 4096 * 0 + 256 * 0 + 16 * (c.toNat / 16) + c.toNat % 16 = c.toNat by omega]
  exact Char.ofNat_toNat c

/-- Scanning an escaped string body followed by the closing quote
recovers the original characters and leaves the remaining input. -/
theorem parseStringBody_escape (s : List Char) (rest : List Char) :
    parseStringBody ((s.map escapeChar).flatten ++ '"' :: rest) = some (s, rest) := by
  induction s with
  | nil =>
    rw [show ((List.map escapeChar []).flatten ++ '"' :: rest) = '"' :: rest by simp]
    rw [parseStringBody.eq_def]
    simp
  | cons c s ih =>
    rw [show ((c :: s).map escapeChar).flatten ++ '"' :: rest =
        escapeChar c ++ ((s.map escapeChar).flatten ++ '"' :: rest) by
      simp [List.append_assoc]]
    by_cases h1 : c = '"'
    · subst h1
      rw [show escapeChar '"' = ['\\', '"'] from rfl]
      simp only [List.cons_append, List.nil_append]
      rw [parseStringBody.eq_def]
      simp [ih]
    · by_cases h2 : c = '\\'
      · subst h2
        rw [show escapeChar '\\' = ['\\', '\\'] from rfl]
        simp only [List.cons_append, List.nil_append]
        rw [parseStringBody.eq_def]
        simp [ih]
      · by_cases h3 : c = '\x08'
        · subst h3
          rw [show escapeChar '\x08' = ['\\', 'b'] from rfl]
          simp only [List.cons_append, List.nil_append]
          rw [parseStringBody.eq_def]
          simp [ih]
        · by_cases h4 : c = '\t'
          · subst h4
            rw [show escapeChar '\t' = ['\\', 't'] from rfl]
            simp only [List.cons_append, List.nil_append]
            rw [parseStringBody.eq_def]
            simp [ih]
          · by_cases h5 : c = '\n'
            · subst h5
              rw [show escapeChar '\n' = ['\\', 'n'] from rfl]
              simp only [List.cons_append, List.nil_append]
              rw [parseStringBody.eq_def]
              simp [ih]
            · by_cases h6 : c = '\x0c'
              · subst h6
                rw [show escapeChar '\x0c' = ['\\', 'f'] from rfl]
                simp only [List.cons_append, List.nil_append]
                rw [parseStringBody.eq_def]
                simp [ih]
              · by_cases h7 : c = '\r'
                · subst h7
                  rw [show escapeChar '\r' = ['\\', 'r'] from rfl]
                  simp only [List.cons_append, List.nil_append]
                  rw [parseStringBody.eq_def]
                  simp [ih]
                · by_cases h8 : c.toNat < 32
                  · rw [show escapeChar c =
                        ['\\', 'u', '0', '0', hexDigitChar (c.toNat / 16),
                         hexDigitChar (c.toNat % 16)] by
                      simp only [escapeChar, if_neg h1, if_neg h2, if_neg h3, if_neg h4,
                        if_neg h5, if_neg h6, if_neg h7, if_pos h8]]
                    have hd : c.toNat / 16 < 16 := by omega
                    have hm : c.toNat % 16 < 16 := by omega
                    simp only [List.cons_append, List.nil_append]
                    rw [parseStringBody.eq_def]
                    simp only [reduceIte, Char.reduceEq]
                    rw [show hexVal '0' = some 0 from rfl,
                        hexVal_hexDigitChar _ hd, hexVal_hexDigitChar _ hm]
                    simp only [ih, Option.map_some]
                    rw [charOfNat_digits c]
                    rfl
                  · rw [show escapeChar c = [c] by
                      simp only [escapeChar, if_neg h1, if_neg h2, if_neg h3, if_neg h4,
                        if_neg h5, if_neg h6, if_neg h7, if_neg h8]]
                    simp only [List.singleton_append]
                    rw [parseStringBody.eq_def]
                    simp [if_neg h1, if_neg h2, ih]

theorem consumeLit_append (ps rest : List Char) : consumeLit ps (ps ++ rest) = some rest := by
  induction ps with
  | nil => rfl
  | cons p ps ih => simp [consumeLit, ih]

theorem consumeLit_self (ps : List Char) : consumeLit ps ps = some [] := by
  have h := consumeLit_append ps []
  simpa using h

/-- C7: serializing a ConnectionConfig to the connection string as the
submit handler does (JSON.stringify of the three-field object) and then
deserializing it as getData does (JSON.parse restricted to that grammar)
yields an identical structure, for every choice of the three strings. -/
theorem c7_connection_roundtrip (c : ConnectionConfig) :
    parseConnectionData (stringifyConnectionData c) = some c := by
  unfold parseConnectionData stringifyConnectionData escapeString
  simp only [consumeLit_append, parseStringBody_escape, consumeLit_self]

/-- C7 witness: the roundtrip instantiated at a concrete config. -/
theorem c7_connection_roundtrip_witness :
    parseConnectionData (stringifyConnectionData demoConfig) = some demoConfig :=
  c7_connection_roundtrip demoConfig

/-- C8: for every valid ConnectionConfig (non-empty baseUrl), the
request URL is exactly the base URL followed by the users.json path, the
fixed 15-entry field selector joined with commas (the three relation
entries carrying their bracketed sub-selections), and paging=false; the
selector list has 15 pairwise-distinct entries, independent of the
config content. -/
theorem c8_request_url (c : ConnectionConfig) (dom : DomFields) (hb : c.baseUrl ≠ "") :
    requestUrl (configToJson c) dom =
      .ok (c.baseUrl ++ "/api/users.json?fields=" ++
        String.intercalate "," fieldSelectors ++ "&paging=false") ∧
    fieldSelectors.length = 15 ∧ fieldSelectors.Nodup := by
  refine ⟨?_, rfl, by decide⟩
  unfold requestUrl
  rw [readParam_ok (show (configToJson c).isNull = false from rfl) "baseUrl" dom.baseUrl,
    ok_bind]
  have hf : jsField (configToJson c) "baseUrl" = .val (.str c.baseUrl) := rfl
  have hbe : (c.baseUrl == "") = false := beq_eq_false_iff_ne.mpr hb
  rw [hf]
  simp only [jsTruthy, hbe, Bool.not_false, if_true]
  rw [show jsValToStr (JsValue.val (JsonValue.str c.baseUrl)) = c.baseUrl from rfl, pure_eq_ok]
  have hurl : buildUrl c.baseUrl = c.baseUrl ++ "/api/users.json?fields=" ++
      String.intercalate "," fieldSelectors ++ "&paging=false" := by
    unfold buildUrl
    simp only [String.append_assoc]
    congr 1
  rw [hurl]

/-- C8 witness: the URL computed for a concrete config. -/
theorem c8_request_url_witness :
    requestUrl (configToJson demoConfig) demoDom =
      .ok (demoConfig.baseUrl ++ "/api/users.json?fields=" ++
        String.intercalate "," fieldSelectors ++ "&paging=false") ∧
    fieldSelectors.length = 15 ∧ fieldSelectors.Nodup :=
  c8_request_url demoConfig demoDom (by decide)

/-- C9: getSchema always hands its callback the same single table
descriptor with id DHIS2Users and the same 16 columns in the same order
with the same types: all strings except created, lastUpdated and
lastLogin (datetime) and disabled (boolean). Being a fixed pure value,
the schema is identical across repeated calls. -/
theorem c9_schema_fixed :
    (∀ cb : List SchemaTable → List SchemaTable, getSchema cb = cb getSchemaTables) ∧
    getSchemaTables.length = 1 ∧
    getSchemaTables.map SchemaTable.id = ["DHIS2Users"] ∧
    (getSchemaTables.map fun t => t.columns.length) = [16] ∧
    (getSchemaTables.map fun t => t.columns.map ColumnSchema.id) =
      [["id", "username", "firstName", "surname", "displayName", "created", "lastUpdated",
        "gender", "email", "phone", "jobTitle", "orgUnits", "roles", "groups", "lastLogin",
        "disabled"]] ∧
    (getSchemaTables.map fun t => t.columns.map ColumnSchema.colAlias) =
      [["ID", "Username", "First Name", "Last Name", "Display Name", "Created",
        "Last Updated", "Gender", "Email", "Phone", "Job Title", "Org Units", "Roles",
        "Groups", "Last Login", "Disabled"]] ∧
    (getSchemaTables.map fun t => t.columns.map ColumnSchema.dataType) =
      [[.string, .string, .string, .string, .string, .datetime, .datetime, .string, .string,
        .string, .string, .string, .string, .string, .datetime, .boolean]] :=
  ⟨fun _ => rfl, rfl, rfl, rfl, rfl, rfl, rfl⟩

/-- C9 witness: the schema callback receives the fixed table list. -/
theorem c9_schema_fixed_witness : getSchema (fun t => t) = getSchemaTables :=
  c9_schema_fixed.1 (fun t => t)

theorem processBody_no_users_aux (json : JsonValue) (hn : json.isNull = false)
    (hu : usersFieldIsArray json = false) :
    ∃ m, processBody json = .error (.typeError m) := by
  unfold processBody
  unfold usersFieldIsArray at hu
  rw [jsGet_val_ok hn "users"] at hu ⊢
  rw [ok_bind]
  cases hf : jsField json "users" with
  | undefined => exact ⟨_, rfl⟩
  | val v =>
    rw [hf] at hu
    cases v with
    | null => exact ⟨_, rfl⟩
    | bool b => exact ⟨_, rfl⟩
    | num n => exact ⟨_, rfl⟩
    | str s2 => exact ⟨_, rfl⟩
    | arr xs => exact Bool.noConfusion (show true = false from hu)
    | obj fs => exact ⟨_, rfl⟩

/-- A parsed body without a users array makes the mapping step throw a
TypeError: json.users is either an access on null or produces a value
without a map method. -/
theorem processBody_no_users (json : JsonValue) (hu : usersFieldIsArray json = false) :
    ∃ m, processBody json = .error (.typeError m) := by
  cases json with
  | null => exact ⟨"Cannot read properties of null (reading users)", rfl⟩
  | bool b => exact processBody_no_users_aux _ rfl hu
  | num n => exact processBody_no_users_aux _ rfl hu
  | str s2 => exact processBody_no_users_aux _ rfl hu
  | arr xs => exact processBody_no_users_aux _ rfl hu
  | obj fs => exact processBody_no_users_aux _ rfl hu

theorem errMessage_http401 (t : String) :
    errMessage (.httpError 401 t) = "HTTP 401: " ++ t :=
  congrArg (fun s => s ++ t) (show "HTTP " ++ toString (401 : Nat) ++ ": " = "HTTP 401: " by rfl)

theorem msg401_contains (t : String) :
    ∃ pre post, "HTTP 401: " ++ t = pre ++ ("401" ++ post) := by
  refine ⟨"HTTP ", ": " ++ t, ?_⟩
  rw [← String.append_assoc, ← String.append_assoc]
  exact congrArg (fun s => s ++ t) (show "HTTP 401: " = ("HTTP " ++ "401") ++ ": " by rfl)

/-- C1 counterexample: the empty record \x7b\x7d inside a users array is
mapped to a row whose id field is undefined, because `id: u.id` has no
default; this falsifies the claim that all 16 fields, including id, are
present (never undefined) when the source field is missing. -/
theorem c1_counterexample :
    (processBody (JsonValue.obj [("users", JsonValue.arr [JsonValue.obj []])])).map
      (fun rows => rows.map FlatUserRow.id) = .ok [JsValue.undefined] := rfl

/-- C1 (amended): in every successfully produced row the nine
defaulted or joined fields are always present — gender, email, phone,
jobTitle, disabled and lastLogin are never undefined, and orgUnits,
roles, groups are strings by construction — while each of the seven
copied fields (id, username, firstName, surname, displayName, created,
lastUpdated) is undefined exactly when the corresponding source field is
missing from the record. -/
theorem c1_field_presence (u : JsonValue) (row : FlatUserRow)
    (h : flattenUser u = .ok row) :
    (row.gender ≠ .undefined ∧ row.email ≠ .undefined ∧ row.phone ≠ .undefined ∧
     row.jobTitle ≠ .undefined ∧ row.disabled ≠ .undefined ∧
     row.lastLogin ≠ .undefined) ∧
    (row.id = .undefined ↔ jsField u "id" = .undefined) ∧
    (row.username = .undefined ↔ jsField u "username" = .undefined) ∧
    (row.firstName = .undefined ↔ jsField u "firstName" = .undefined) ∧
    (row.surname = .undefined ↔ jsField u "surname" = .undefined) ∧
    (row.displayName = .undefined ↔ jsField u "displayName" = .undefined) ∧
    (row.created = .undefined ↔ jsField u "created" = .undefined) ∧
    (row.lastUpdated = .undefined ↔ jsField u "lastUpdated" = .undefined) := by
  obtain ⟨hn, og, rl, gp, ll, hog, hrl, hgp, hll, hrow⟩ := flattenUser_inv u row h
  subst hrow
  exact ⟨⟨jsOr_ne_undefined _ _, jsOr_ne_undefined _ _, jsOr_ne_undefined _ _,
    jsOr_ne_undefined _ _, jsOr_ne_undefined _ _, jsOr_ne_undefined _ _⟩,
    Iff.rfl, Iff.rfl, Iff.rfl, Iff.rfl, Iff.rfl, Iff.rfl, Iff.rfl⟩

/-- C1 witness: the amended statement at the concrete record holding
only an id, whose row has a defined id and the other six copied fields
undefined. -/
theorem c1_field_presence_witness :
    (rowOnlyId.gender ≠ .undefined ∧ rowOnlyId.email ≠ .undefined ∧
     rowOnlyId.phone ≠ .undefined ∧ rowOnlyId.jobTitle ≠ .undefined ∧
     rowOnlyId.disabled ≠ .undefined ∧ rowOnlyId.lastLogin ≠ .undefined) ∧
    (rowOnlyId.id = .undefined ↔
      jsField (JsonValue.obj [("id", JsonValue.str "u1")]) "id" = .undefined) ∧
    (rowOnlyId.username = .undefined ↔
      jsField (JsonValue.obj [("id", JsonValue.str "u1")]) "username" = .undefined) ∧
    (rowOnlyId.firstName = .undefined ↔
      jsField (JsonValue.obj [("id", JsonValue.str "u1")]) "firstName" = .undefined) ∧
    (rowOnlyId.surname = .undefined ↔
      jsField (JsonValue.obj [("id", JsonValue.str "u1")]) "surname" = .undefined) ∧
    (rowOnlyId.displayName = .undefined ↔
      jsField (JsonValue.obj [("id", JsonValue.str "u1")]) "displayName" = .undefined) ∧
    (rowOnlyId.created = .undefined ↔
      jsField (JsonValue.obj [("id", JsonValue.str "u1")]) "created" = .undefined) ∧
    (rowOnlyId.lastUpdated = .undefined ↔
      jsField (JsonValue.obj [("id", JsonValue.str "u1")]) "lastUpdated" = .undefined) :=
  c1_field_presence (JsonValue.obj [("id", JsonValue.str "u1")]) rowOnlyId rfl

/-- C2 counterexample: when the persisted connection string fails to
deserialize, JSON.parse throws before the promise chain is set up, so
getData throws the error instead of invoking abortWithError; this
falsifies the claim that every failure, including deserialization
failure, reaches the abort operation. -/
theorem c2_counterexample :
    getData (.error (.badJson "Unexpected token x in JSON")) demoDom respServerError =
      .thrown (.badJson "Unexpected token x in JSON") ∧
    (getData (.error (.badJson "Unexpected token x in JSON")) demoDom
      respServerError).isAborted = false :=
  ⟨rfl, rfl⟩

/-- C2 (amended): when the connection string deserializes, a fetch
rejection (HTTP or body failure) makes getData invoke abortWithError
with exactly the error message and deliver no rows, while a resolved
fetch appends exactly the fetched rows and signals done; but a
connection string that fails to deserialize makes getData throw
synchronously without invoking abort. -/
theorem c2_getData_outcomes (cfg : JsonValue) (dom : DomFields) (resp : HttpResponse) :
    (∀ e, fetchDataForWDC cfg dom resp = .rejected e →
      getData (.ok cfg) dom resp = .aborted (errMessage e)) ∧
    (∀ rows, fetchDataForWDC cfg dom resp = .resolved rows →
      getData (.ok cfg) dom resp = .success rows) ∧
    (∀ e, getData (.error e) dom resp = .thrown e) :=
  ⟨fun _ h => getData_of_rejected h, fun _ h => getData_of_resolved h, fun _ => rfl⟩

/-- C2 witness: a server error aborts with its message; a good response
delivers the single fetched row. -/
theorem c2_getData_outcomes_witness :
    getData (.ok (configToJson demoConfig)) demoDom respServerError =
      .aborted (errMessage (.httpError 500 "Internal Server Error")) ∧
    getData (.ok (configToJson demoConfig)) demoDom respOneUser = .success [rowOnlyId] :=
  ⟨(c2_getData_outcomes (configToJson demoConfig) demoDom respServerError).1
      (.httpError 500 "Internal Server Error") rfl,
   (c2_getData_outcomes (configToJson demoConfig) demoDom respOneUser).2.1 [rowOnlyId] rfl⟩

/-- C3 counterexample: an ok response whose body is an object without a
users field makes fetchDataForWDC reject with a TypeError from the
unguarded json.users.map access; the program defines no structured
ParseError value, so the claim that it fails with a ParseError is false
as stated. -/
theorem c3_counterexample :
    fetchDataForWDC (configToJson demoConfig) demoDom respNoUsers =
      .rejected (.typeError "Cannot read properties of undefined (reading map)") := rfl

/-- C3 (amended): for every HTTP-success response whose parsed body
lacks a users array — absent field, null body, or a non-array value —
fetchUsers rejects, but with the TypeError of the unguarded
json.users.map access rather than a structured ParseError. -/
theorem c3_missing_users_rejects (cfg : JsonValue) (dom : DomFields)
    (resp : HttpResponse) (json : JsonValue) (hn : cfg.isNull = false)
    (hok : responseOk resp = true) (hb : resp.body = some json)
    (hu : usersFieldIsArray json = false) :
    ∃ m, fetchDataForWDC cfg dom resp = .rejected (.typeError m) := by
  obtain ⟨m, hm⟩ := processBody_no_users json hu
  refine ⟨m, ?_⟩
  rw [fetchDataForWDC_nonNull hn dom resp, hb]
  simp only [hok, reduceIte]
  rw [hm]

/-- C3 witness: the amended statement at the concrete body without a
users field. -/
theorem c3_missing_users_rejects_witness :
    ∃ m, fetchDataForWDC (configToJson demoConfig) demoDom respNoUsers =
      .rejected (.typeError m) :=
  c3_missing_users_rejects (configToJson demoConfig) demoDom respNoUsers
    (JsonValue.obj []) rfl rfl rfl rfl

/-- C4: every non-success status makes fetchUsers reject with the HTTP
error carrying exactly the status code and reason phrase, whatever the
body holds (the body is never consulted); in particular for status 401
getData aborts with the message HTTP 401 followed by the reason, which
contains 401. -/
theorem c4_http_error (cfg : JsonValue) (dom : DomFields) (resp : HttpResponse)
    (hn : cfg.isNull = false) (hfail : responseOk resp = false) :
    fetchDataForWDC cfg dom resp = .rejected (.httpError resp.status resp.statusText) ∧
    (∀ b, fetchDataForWDC cfg dom { resp with body := b } =
      .rejected (.httpError resp.status resp.statusText)) ∧
    (resp.status = 401 →
      getData (.ok cfg) dom resp = .aborted ("HTTP 401: " ++ resp.statusText) ∧
      ∃ pre post, "HTTP 401: " ++ resp.statusText = pre ++ ("401" ++ post)) := by
  have h1 : fetchDataForWDC cfg dom resp =
      .rejected (.httpError resp.status resp.statusText) := by
    rw [fetchDataForWDC_nonNull hn dom resp]
    simp only [hfail, Bool.false_eq_true, if_false]
  refine ⟨h1, fun b => ?_, fun h401 => ?_⟩
  · rw [fetchDataForWDC_nonNull hn dom _]
    simp only [show responseOk { resp with body := b } = false from hfail,
      Bool.false_eq_true, if_false]
  · have h2 := getData_of_rejected h1
    rw [h401] at h2
    rw [errMessage_http401 resp.statusText] at h2
    exact ⟨h2, msg401_contains resp.statusText⟩

/-- C4 witness: the 401 scenario at a concrete config and response. -/
theorem c4_http_error_witness :
    fetchDataForWDC (configToJson demoConfig) demoDom resp401 =
      .rejected (.httpError 401 "Unauthorized") ∧
    getData (.ok (configToJson demoConfig)) demoDom resp401 =
      .aborted ("HTTP 401: " ++ "Unauthorized") ∧
    ∃ pre post, "HTTP 401: " ++ "Unauthorized" = pre ++ ("401" ++ post) := by
  have h := c4_http_error (configToJson demoConfig) demoDom resp401 rfl rfl
  exact ⟨h.1, (h.2.2 rfl).1, (h.2.2 rfl).2⟩

/-- C5: a raw record whose optional fields are absent gets the defaults
gender, email, phone and jobTitle empty string, disabled false, and
lastLogin empty string (the last through the optional-chained
credentials read). -/
theorem c5_optional_defaults (u : JsonValue) (row : FlatUserRow)
    (h : flattenUser u = .ok row)
    (hg : jsField u "gender" = .undefined) (he : jsField u "email" = .undefined)
    (hp : jsField u "phoneNumber" = .undefined) (hj : jsField u "jobTitle" = .undefined)
    (hd : jsField u "disabled" = .undefined) (hc : jsField u "userCredentials" = .undefined) :
    row.gender = .val (.str "") ∧ row.email = .val (.str "") ∧
    row.phone = .val (.str "") ∧ row.jobTitle = .val (.str "") ∧
    row.disabled = .val (.bool false) ∧ row.lastLogin = .val (.str "") := by
  obtain ⟨hn, og, rl, gp, ll, hog, hrl, hgp, hll, hrow⟩ := flattenUser_inv u row h
  subst hrow
  rw [hc] at hll
  have hll2 : JsValue.undefined = ll := by
    have := hll
    injection this
  refine ⟨?_, ?_, ?_, ?_, ?_, ?_⟩
  · show jsOr (jsField u "gender") (.str "") = .val (.str "")
    rw [hg]
    exact jsOr_undefined _
  · show jsOr (jsField u "email") (.str "") = .val (.str "")
    rw [he]
    exact jsOr_undefined _
  · show jsOr (jsField u "phoneNumber") (.str "") = .val (.str "")
    rw [hp]
    exact jsOr_undefined _
  · show jsOr (jsField u "jobTitle") (.str "") = .val (.str "")
    rw [hj]
    exact jsOr_undefined _
  · show jsOr (jsField u "disabled") (.bool false) = .val (.bool false)
    rw [hd]
    exact jsOr_undefined _
  · show jsOr ll (.str "") = .val (.str "")
    rw [← hll2]
    exact jsOr_undefined _

/-- C5 witness: the defaults at the concrete record holding only an
id. -/
theorem c5_optional_defaults_witness :
    rowOnlyId.gender = .val (.str "") ∧ rowOnlyId.email = .val (.str "") ∧
    rowOnlyId.phone = .val (.str "") ∧ rowOnlyId.jobTitle = .val (.str "") ∧
    rowOnlyId.disabled = .val (.bool false) ∧ rowOnlyId.lastLogin = .val (.str "") :=
  c5_optional_defaults (JsonValue.obj [("id", JsonValue.str "u1")]) rowOnlyId
    rfl rfl rfl rfl rfl rfl rfl

/-- C6: each list relation is flattened by joining the element names
with the separator in source order: a relation holding named objects
joins to the names interleaved with the fixed separator (so A and B give
A; B), and an absent relation — or the empty name list — joins to the
empty string, for organisationUnits, userRoles and userGroups alike. -/
theorem c6_list_joins (u : JsonValue) (row : FlatUserRow)
    (h : flattenUser u = .ok row) :
    (∀ ns : List String, jsGet (.val u) "organisationUnits" =
        .ok (.val (.arr (ns.map fun n => JsonValue.obj [("name", JsonValue.str n)]))) →
      row.orgUnits = String.intercalate "; " ns) ∧
    (jsGet (.val u) "organisationUnits" = .ok .undefined → row.orgUnits = "") ∧
    (∀ ns : List String, jsGet (.val u) "userRoles" =
        .ok (.val (.arr (ns.map fun n => JsonValue.obj [("name", JsonValue.str n)]))) →
      row.roles = String.intercalate "; " ns) ∧
    (jsGet (.val u) "userRoles" = .ok .undefined → row.roles = "") ∧
    (∀ ns : List String, jsGet (.val u) "userGroups" =
        .ok (.val (.arr (ns.map fun n => JsonValue.obj [("name", JsonValue.str n)]))) →
      row.groups = String.intercalate "; " ns) ∧
    (jsGet (.val u) "userGroups" = .ok .undefined → row.groups = "") := by
  obtain ⟨hn, og, rl, gp, ll, hog, hrl, hgp, hll, hrow⟩ := flattenUser_inv u row h
  subst hrow
  refine ⟨fun ns hns => ?_, fun habs => ?_, fun ns hns => ?_, fun habs => ?_,
    fun ns hns => ?_, fun habs => ?_⟩
  · have h2 := joinNames_named u "organisationUnits" ns hns
    rw [hog] at h2
    injection h2
  · have h2 := joinNames_absent u "organisationUnits" habs
    rw [hog] at h2
    injection h2
  · have h2 := joinNames_named u "userRoles" ns hns
    rw [hrl] at h2
    injection h2
  · have h2 := joinNames_absent u "userRoles" habs
    rw [hrl] at h2
    injection h2
  · have h2 := joinNames_named u "userGroups" ns hns
    rw [hgp] at h2
    injection h2
  · have h2 := joinNames_absent u "userGroups" habs
    rw [hgp] at h2
    injection h2

/-- C6 witness: the record with org units A and B, an empty role list
and no group list joins to A; B, empty and empty. -/
theorem c6_list_joins_witness :
    rowAB.orgUnits = String.intercalate "; " ["A", "B"] ∧
    rowAB.roles = String.intercalate "; " ([] : List String) ∧
    rowAB.groups = "" := by
  have h := c6_list_joins demoUserAB rowAB rfl
  exact ⟨h.1 ["A", "B"] rfl, h.2.2.1 [] rfl, h.2.2.2.2.2 rfl⟩

/-- C10: a resolved fetch whose parsed body held a users array produced
exactly one row per array element, in source order: the row list has the
same length and its i-th entry is the flattening of the i-th record. -/
theorem c10_length_order (cfg : JsonValue) (dom : DomFields) (resp : HttpResponse)
    (json : JsonValue) (xs : List JsonValue) (rows : List FlatUserRow)
    (hfetch : fetchDataForWDC cfg dom resp = .resolved rows)
    (hb : resp.body = some json)
    (hu : jsGet (.val json) "users" = .ok (.val (.arr xs))) :
    rows.length = xs.length ∧
    ∀ i (hx : i < xs.length) (hy : i < rows.length),
      flattenUser (xs.get ⟨i, hx⟩) = .ok (rows.get ⟨i, hy⟩) := by
  obtain ⟨json2, hb2, hpb⟩ := fetchDataForWDC_resolved_inv hfetch
  rw [hb] at hb2
  injection hb2 with hb2
  subst hb2
  unfold processBody at hpb
  rw [hu, ok_bind] at hpb
  have hm : mapExcept flattenUser xs = .ok rows := hpb
  exact ⟨mapExcept_ok_length flattenUser xs rows hm,
    fun i hx hy => mapExcept_ok_get flattenUser xs rows hm i hx hy⟩

/-- C10 witness: the single-record response yields exactly one row,
which flattens its record. -/
theorem c10_length_order_witness :
    ([rowOnlyId] : List FlatUserRow).length = 1 ∧
    flattenUser (JsonValue.obj [("id", JsonValue.str "u1")]) = .ok rowOnlyId := by
  have h := c10_length_order (configToJson demoConfig) demoDom respOneUser
    (JsonValue.obj [("users", JsonValue.arr [JsonValue.obj [("id", JsonValue.str "u1")]])])
    [JsonValue.obj [("id", JsonValue.str "u1")]] [rowOnlyId] rfl rfl rfl
  exact ⟨h.1, h.2 0 (by decide) (by decide)⟩
